import Mathlib

/-!
Verification development for the obsidian-dynamic-timetable plugin.

Modelling conventions (shallow embedding of the TypeScript source):
* A JavaScript `Date` is its epoch value in milliseconds, as `Int`.  The
  host timezone is modelled as a fixed zero-offset zone with no DST, so
  local calendar fields are obtained by arithmetic modulo the day length.
  Under this convention `setMinutes(getMinutes() + e)` is `+ e * 60000`,
  `setDate(getDate() + n)` is `+ n * 86400000`, and `setHours(h, m)`
  replaces the hour and minute fields while keeping the sub-minute part.
* JavaScript strings are `List Char`; `split('\n')`, `trim()`, the regex
  searches and the template-literal concatenations are implemented
  character by character, following the exact patterns in the source.
* JavaScript numbers are `ℚ` where fractional values can occur and `Int`
  where the source only ever produces integers (`Math.floor`, `Math.max`
  results and so on).
-/

/-- Milliseconds in one minute. -/
def msPerMinute : Int := 60000

/-- Milliseconds in one hour. -/
def msPerHour : Int := 3600000

/-- Milliseconds in one day. -/
def msPerDay : Int := 86400000

/-- Epoch time of local midnight of the day containing `t`. -/
def dayStart (t : Int) : Int := t - t.emod msPerDay

/-- JS `d.setHours(h, m)`: replaces the hour and minute fields, keeping the
seconds and milliseconds of `t`. -/
def dateSetHoursMinutes (t h m : Int) : Int :=
  dayStart t + h * msPerHour + m * msPerMinute + t.emod msPerMinute

/-- JS `d.setHours(h, m, s)`: replaces hours, minutes and seconds, keeping
the milliseconds of `t`. -/
def dateSetHMS (t h m s : Int) : Int :=
  dayStart t + h * msPerHour + m * msPerMinute + s * 1000 + t.emod 1000

/-- JS `d.setHours(h, m, 0, 0)`: replaces hours and minutes, zeroing
seconds and milliseconds. -/
def dateSetHoursMinutesZero (t h m : Int) : Int :=
  dayStart t + h * msPerHour + m * msPerMinute

/-- JS `d.setDate(d.getDate() + n)`: shifts the date by `n` whole days. -/
def dateAddDays (t n : Int) : Int := t + n * msPerDay

/-- JS `d.getHours()` in the fixed-offset model. -/
def dateGetHours (t : Int) : Int := (t.emod msPerDay).ediv msPerHour

/-- JS `d.getMinutes()` in the fixed-offset model. -/
def dateGetMinutes (t : Int) : Int := (t.emod msPerHour).ediv msPerMinute

/-- JS whitespace test (`\s`, `trim`), restricted to the ASCII range. -/
def jsIsSpace (c : Char) : Bool :=
  c = ' ' || c = '\t' || c = '\n' || c = '\r' || c = '\x0b' || c = '\x0c'

/-- JS `\d`: ASCII decimal digit. -/
def jsIsDigit (c : Char) : Bool := '0' ≤ c && c ≤ '9'

/-- Numeric value of one ASCII digit. -/
def digitVal (c : Char) : Nat := c.toNat - '0'.toNat

/-- `Number` / `parseInt` on a string of decimal digits. -/
def digitsToNat (l : List Char) : Nat :=
  l.foldl (fun a c => a * 10 + digitVal c) 0

/-- JS `String.prototype.trim` (ASCII whitespace). -/
def jsTrim (l : List Char) : List Char :=
  ((l.dropWhile jsIsSpace).reverse.dropWhile jsIsSpace).reverse

/-- JS `str.split('\n')`. -/
def splitLines : List Char → List (List Char)
  | [] => [[]]
  | c :: cs =>
    if c = '\n' then [] :: splitLines cs
    else
      match splitLines cs with
      | [] => [[c]]
      | l :: ls => (c :: l) :: ls

/-- JS `lines.join('\n')`. -/
def joinLines : List (List Char) → List Char
  | [] => []
  | [l] => l
  | l :: ls => l ++ '\n' :: joinLines ls

/-- `str.startsWith(p)`. -/
def listStartsWith : List Char → List Char → Bool
  | _, [] => true
  | [], _ :: _ => false
  | c :: cs, p :: ps => c = p && listStartsWith cs ps

/-- Greedy `\s*`: skip a maximal run of whitespace.  In every pattern of
the source, `\s*` is followed by a non-whitespace requirement, so greedy
matching without backtracking is equivalent to full regex semantics. -/
def skipWs (cs : List Char) : List Char := cs.dropWhile jsIsSpace

/-- Match of the capture of ```\s*(\d+)\s*` `` at the current position,
assuming the delimiter was just consumed: skip whitespace, then take a
maximal nonempty digit run. -/
def estimateCaptureAt (cs : List Char) : Option (List Char) :=
  let r := skipWs cs
  let ds := r.takeWhile jsIsDigit
  if ds = [] then none else some ds

/-- Leftmost match of the estimate pattern ```;\s*(\d+)\s*` `` (the
default `taskEstimateDelimiter` is `;`); returns capture group 1. -/
def findEstimateMatch : List Char → Option (List Char)
  | [] => none
  | c :: cs =>
    if c = ';' then
      match estimateCaptureAt cs with
      | some ds => some ds
      | none => findEstimateMatch cs
    else findEstimateMatch cs

/-- The `:?\d{2}` tail of the bare-time capture, after the hour digits
`pre`.  The regex engine prefers consuming a `:`; if no colon (or no two
digits after it) it falls back to two bare digits. -/
def timeTail (pre rest : List Char) : Option (List Char) :=
  match rest with
  | ':' :: c :: d :: _ =>
    if jsIsDigit c && jsIsDigit d then some (pre ++ [':', c, d]) else none
  | c :: d :: _ =>
    if jsIsDigit c && jsIsDigit d then some (pre ++ [c, d]) else none
  | _ => none

/-- Capture of `(\d{1,2}:?\d{2})` at the current position, with the
backtracking preference order of the regex engine: a two-digit hour is
tried before a one-digit hour. -/
def timeGroupAt (cs : List Char) : Option (List Char) :=
  match cs with
  | a :: b :: r =>
    if jsIsDigit a then
      if jsIsDigit b then
        match timeTail [a, b] r with
        | some cap => some cap
        | none => timeTail [a] (b :: r)
      else timeTail [a] (b :: r)
    else none
  | _ => none

/-- Leftmost match of the bare-time pattern `@\s*(\d{1,2}:?\d{2})` (the
default `startTimeDelimiter` is `@`); returns capture group 1. -/
def findTimeMatch : List Char → Option (List Char)
  | [] => none
  | c :: cs =>
    if c = '@' then
      match timeGroupAt (skipWs cs) with
      | some cap => some cap
      | none => findTimeMatch cs
    else findTimeMatch cs

/-- The `\d{1,2}:\d{2}` time part of the date-time pattern: returns the
numeric hour and minute.  A two-digit hour is preferred; a one-digit hour
requires the colon immediately after it. -/
def dtTimeAt (cs : List Char) : Option (Nat × Nat) :=
  match cs with
  | a :: b :: ':' :: c :: d :: _ =>
    if jsIsDigit a && jsIsDigit b && jsIsDigit c && jsIsDigit d then
      some (digitsToNat [a, b], digitsToNat [c, d])
    else none
  | a :: ':' :: c :: d :: _ =>
    if jsIsDigit a && jsIsDigit c && jsIsDigit d then
      some (digitsToNat [a], digitsToNat [c, d])
    else none
  | _ => none

/-- Capture of `(\d{4}-\d{2}-\d{2}T\d{1,2}:\d{2})` at the current
position, returned as numeric year, month, day, hour, minute. -/
def dateTimeGroupAt (cs : List Char) : Option (Nat × Nat × Nat × Nat × Nat) :=
  match cs with
  | y1 :: y2 :: y3 :: y4 :: '-' :: o1 :: o2 :: '-' :: d1 :: d2 :: 'T' :: rest =>
    if [y1, y2, y3, y4, o1, o2, d1, d2].all jsIsDigit then
      match dtTimeAt rest with
      | some (h, mi) =>
        some (digitsToNat [y1, y2, y3, y4], digitsToNat [o1, o2],
              digitsToNat [d1, d2], h, mi)
      | none => none
    else none
  | _ => none

/-- Leftmost match of `@\s*(\d{4}-\d{2}-\d{2}T\d{1,2}:\d{2})`. -/
def findDateTimeMatch : List Char → Option (Nat × Nat × Nat × Nat × Nat)
  | [] => none
  | c :: cs =>
    if c = '@' then
      match dateTimeGroupAt (skipWs cs) with
      | some g => some g
      | none => findDateTimeMatch cs
    else findDateTimeMatch cs

/-- Days in a month of the proleptic Gregorian calendar. -/
def daysInMonth (y m : Nat) : Nat :=
  if m = 2 then
    if y % 4 = 0 && (y % 100 ≠ 0 || y % 400 = 0) then 29 else 28
  else if m = 4 || m = 6 || m = 9 || m = 11 then 30
  else 31

/-- Days between 1970-01-01 and the civil date `y-m-d` (Howard Hinnant's
`days_from_civil` algorithm). -/
def daysFromCivil (y m d : Int) : Int :=
  let y' := if m ≤ 2 then y - 1 else y
  let era := Int.fdiv y' 400
  let yoe := y' - era * 400
  let mp := if m > 2 then m - 3 else m + 9
  let doy := Int.ediv (153 * mp + 2) 5 + d - 1
  let doe := yoe * 365 + Int.ediv yoe 4 - Int.ediv yoe 100 + doy
  era * 146097 + doe - 719468

/-- JS `new Date("YYYY-MM-DDTHH:MM")` in the fixed-offset model: a
range-valid local date-time yields its epoch value, otherwise the result
is an invalid date (`none`, i.e. `isNaN(d.getTime())`). -/
def jsDateParseIso (y mo d h mi : Nat) : Option Int :=
  if 1 ≤ mo && mo ≤ 12 && 1 ≤ d && d ≤ daysInMonth y mo && h ≤ 23 && mi ≤ 59 then
    some (daysFromCivil y mo d * msPerDay + (h : Int) * msPerHour +
          (mi : Int) * msPerMinute)
  else none

/-- Capture of `/^startTime: (\d{2}:\d{2}:\d{2})/` against one line:
the line must start with the literal `startTime: ` followed by the
`hh:mm:ss` shape; anything after it is ignored. -/
def yamlStartTimeCapture (line : List Char) : Option (Nat × Nat × Nat) :=
  match line with
  | 's' :: 't' :: 'a' :: 'r' :: 't' :: 'T' :: 'i' :: 'm' :: 'e' :: ':' :: ' ' ::
      h1 :: h2 :: ':' :: m1 :: m2 :: ':' :: s1 :: s2 :: _ =>
    if [h1, h2, m1, m2, s1, s2].all jsIsDigit then
      some (digitsToNat [h1, h2], digitsToNat [m1, m2], digitsToNat [s1, s2])
    else none
  | _ => none

/-- `TaskParser.getYamlStartTime` (src/src/TaskParser.ts): a multiline
search for `/^startTime: (\d{2}:\d{2}:\d{2})/m`; on a match, `new Date()`
with `setHours(h, m, s)` (milliseconds of `now` are kept). -/
def getYamlStartTime (content : List Char) (now : Int) : Option Int :=
  match (splitLines content).findSome? yamlStartTimeCapture with
  | some (h, m, s) => some (dateSetHMS now h m s)
  | none => none

namespace TP2

/-!
Embedding of the `TaskParser` class of src/src/TaskParser.ts (the variant
whose `Task` has `originalTaskName`, `originalStartTime` and `categories`,
cited by claims C1-C3), at the default settings
`taskEstimateDelimiter = ";"` and `startTimeDelimiter = "@"`.  The
`dateDelimiter` and `showUntilRegex` tests are kept as parameters; with
their default empty-string settings the constructor falls back to the
never-matching regex `/(?!x)x/`, i.e. the constant-false test.  The
name-only fields `task` / `originalTaskName` / `categories` are omitted
from the record: they are display data never consulted by the scheduling
logic the claims are about. -/

/-- `TaskParser.parseStartTime(task, nextDay)`: the date-time pattern is
tried first; if it matches but is range-invalid the result is null (the
bare-time branch is `else if`).  A bare time anchors to `new Date()`
(`now`) shifted by `nextDay` days, with `setHours(hours, minutes)`
keeping the sub-minute part of `now`. -/
def parseStartTime (task : List Char) (nextDay : Int) (now : Int) : Option Int :=
  match findDateTimeMatch task with
  | some (y, mo, d, h, mi) => jsDateParseIso y mo d h mi
  | none =>
    match findTimeMatch task with
    | some cap =>
      let hoursStr := if (':' ∈ cap) then cap.takeWhile (fun c => c ≠ ':') else cap.take 2
      let minutesStr := if (':' ∈ cap) then (cap.dropWhile (fun c => c ≠ ':')).drop 1 else cap.drop 2
      let hours : Int := digitsToNat hoursStr
      let minutes : Int := digitsToNat minutesStr
      some (dateSetHoursMinutes (dateAddDays now nextDay) hours minutes)
    | none => none

/-- `TaskParser.parseEstimate(task)`: capture of ``/;\s*(\d+)\s*/``. -/
def parseEstimate (task : List Char) : Option (List Char) :=
  findEstimateMatch task

/-- The checklist-marker test of `filterAndParseTasks`: the line must
start with one of the six `- [ ]` / `- [x]` / `+ …` / `* …` markers. -/
def isTaskPrefixLine (task : List Char) : Bool :=
  listStartsWith task ('-' :: ' ' :: '[' :: ' ' :: ']' :: []) ||
  listStartsWith task ('-' :: ' ' :: '[' :: 'x' :: ']' :: []) ||
  listStartsWith task ('+' :: ' ' :: '[' :: ' ' :: ']' :: []) ||
  listStartsWith task ('+' :: ' ' :: '[' :: 'x' :: ']' :: []) ||
  listStartsWith task ('*' :: ' ' :: '[' :: ' ' :: ']' :: []) ||
  listStartsWith task ('*' :: ' ' :: '[' :: 'x' :: ']' :: [])

/-- The `isCompleted` test of `filterAndParseTasks`. -/
def isCompletedLine (task : List Char) : Bool :=
  listStartsWith task ('-' :: ' ' :: '[' :: 'x' :: ']' :: []) ||
  listStartsWith task ('+' :: ' ' :: '[' :: 'x' :: ']' :: []) ||
  listStartsWith task ('*' :: ' ' :: '[' :: 'x' :: ']' :: [])

/-- One parsed task record (scheduling fields of the source `Task`
interface).  `parsedStartTime` is a ghost field recording the value
`parseStartTime` returned for the line, so that specifications can refer
to the explicit start time; the source keeps only its truthiness as
`originalStartTime = Boolean(startTime)`. -/
structure PTask where
  startTime : Option Int
  estimate : Option (List Char)
  endTime : Option Int
  isCompleted : Bool
  originalStartTime : Bool
  parsedStartTime : Option Int
  deriving Repr, DecidableEq

/-- The mutable state threaded through the `reduce` of
`filterAndParseTasks`, together with the accumulator. -/
structure PState where
  previousEndTime : Option Int
  firstUncompletedTaskFound : Bool
  nextDay : Int
  dateDelimiterFound : Bool
  stopParsing : Bool
  acc : List PTask
  deriving Repr, DecidableEq

/-- Initial reducer state. -/
def initState : PState :=
  { previousEndTime := none, firstUncompletedTaskFound := false, nextDay := 0,
    dateDelimiterFound := false, stopParsing := false, acc := [] }

/-- JS truthiness of the `estimate` value (a string or null): null and
the empty string are falsy. -/
def estTruthy : Option (List Char) → Bool
  | some ds => ds ≠ []
  | none => false

/-- The start-time selection of `filterAndParseTasks` (the
`if (!isCompleted && !firstUncompletedTaskFound) … else if (!startTime &&
previousEndTime) …` chain): the first uncompleted task gets the YAML
session start, a task with no explicit start chains from the previous end
time, and otherwise the parsed explicit start stands. -/
def chooseStartTime (st : PState) (isCompleted : Bool) (yaml startTime0 : Option Int) :
    Option Int :=
  if ¬ isCompleted ∧ st.firstUncompletedTaskFound = false then yaml
  else if startTime0 = none ∧ st.previousEndTime ≠ none then st.previousEndTime
  else startTime0

/-- The `firstUncompletedTaskFound` update of the same branch. -/
def chooseFirstFound (st : PState) (isCompleted : Bool) : Bool :=
  if ¬ isCompleted ∧ st.firstUncompletedTaskFound = false then true
  else st.firstUncompletedTaskFound

/-- The `endTime` computation of `filterAndParseTasks`
(`if (startTime && estimate) { endTime = startTime + estimate minutes }`). -/
def computeEndTime (startTime : Option Int) (estimate : Option (List Char)) :
    Option Int :=
  match startTime, estimate with
  | some s, some ds => some (s + (digitsToNat ds : Int) * msPerMinute)
  | _, _ => none

/-- The body of the `reduce` callback of `filterAndParseTasks`, for one
(already trimmed) line.  `dd` and `su` are the `dateDelimiter` and
`showUntilRegex` tests, `yaml` the precomputed `yamlStartTime`. -/
def processLine (dd su : List Char → Bool) (yaml : Option Int) (now : Int)
    (st : PState) (task : List Char) : PState :=
  if st.stopParsing then st
  else if dd task then
    if st.firstUncompletedTaskFound then { st with dateDelimiterFound := true } else st
  else if su task then { st with stopParsing := true }
  else if ¬ isTaskPrefixLine task then st
  else
    let isCompleted := isCompletedLine task
    let nextDay := if st.dateDelimiterFound then st.nextDay + 1 else st.nextDay
    let dateDelimiterFound := false
    let estimate := parseEstimate task
    let startTime0 := parseStartTime task nextDay now
    let originalStartTime := startTime0.isSome
    let startTime := chooseStartTime st isCompleted yaml startTime0
    let firstFound := chooseFirstFound st isCompleted
    let endTime : Option Int :=
      computeEndTime startTime (if estTruthy estimate then estimate else none)
    let previousEndTime := match endTime with
      | some e => some e
      | none => st.previousEndTime
    let acc :=
      if estTruthy estimate then
        st.acc ++ [{ startTime := startTime, estimate := estimate,
                     endTime := endTime, isCompleted := isCompleted,
                     originalStartTime := originalStartTime,
                     parsedStartTime := startTime0 : PTask }]
      else st.acc
    { previousEndTime := previousEndTime, firstUncompletedTaskFound := firstFound,
      nextDay := nextDay, dateDelimiterFound := dateDelimiterFound,
      stopParsing := st.stopParsing, acc := acc }

/-- `TaskParser.filterAndParseTasks(content)` of src/src/TaskParser.ts:
split into lines, trim each, reduce with `processLine`. -/
def filterAndParseTasks (dd su : List Char → Bool) (content : List Char)
    (now : Int) : List PTask :=
  let yaml := getYamlStartTime content now
  (((splitLines content).map jsTrim).foldl (processLine dd su yaml now) initState).acc

/-- The parser at the default settings, where `dateDelimiter` and
`showUntilRegex` are empty and never match. -/
def filterAndParseTasksDefault (content : List Char) (now : Int) : List PTask :=
  filterAndParseTasks (fun _ => false) (fun _ => false) content now

/-- Chaining property of an output task list: a task that has no explicit
start time, is not the first uncompleted task of the output, and whose
predecessor has a computed end time, starts at that end time and ends at
it plus its estimate in minutes. -/
def ChainProp (acc : List PTask) : Prop :=
  ∀ (i : Nat) (e : Int) (ti tj : PTask), acc[i]? = some ti → acc[i + 1]? = some tj →
    ti.endTime = some e → tj.originalStartTime = false →
    (tj.isCompleted = true ∨
      ∃ j, j ≤ i ∧ ∃ tk, acc[j]? = some tk ∧ tk.isCompleted = false) →
    tj.startTime = some e ∧
    ∀ ds, tj.estimate = some ds →
      tj.endTime = some (e + (digitsToNat ds : Int) * msPerMinute)

/-- Explicit-start precedence property of an output task list: a task
that carries an explicit start time and is not the first uncompleted task
of the output keeps that explicit time as its computed start time. -/
def ExplProp (acc : List PTask) : Prop :=
  ∀ (i : Nat) (v : Int) (ti : PTask), acc[i]? = some ti → ti.parsedStartTime = some v →
    (ti.isCompleted = true ∨
      ∃ j, j < i ∧ ∃ tk, acc[j]? = some tk ∧ tk.isCompleted = false) →
    ti.startTime = some v

/-- Reducer-state invariant of `filterAndParseTasks`, tying the
accumulator to the mutable state. -/
def Inv (st : PState) : Prop :=
  (∀ t, st.acc.getLast? = some t → ∀ e, t.endTime = some e →
    st.previousEndTime = some e) ∧
  ((∃ t ∈ st.acc, t.isCompleted = false) → st.firstUncompletedTaskFound = true) ∧
  ChainProp st.acc ∧ ExplProp st.acc

end TP2

namespace TaskManager

/-!
Embedding of `taskFunctions` (src/unnamed/part_014), at the default
settings (`taskEstimateDelimiter = ";"`).  Only the content → content
transformations are modelled; vault reads/writes pass the content
explicitly. -/

/-- Decimal digits of a natural number. -/
def natDigits (n : Nat) : List Char := Nat.toDigits 10 n

/-- JS `n.toFixed(0)` for an integer-valued number. -/
def jsToFixed0 (n : Int) : List Char :=
  if n < 0 then '-' :: natDigits n.natAbs else natDigits n.natAbs

/-- Left-pad with `'0'` to two characters (`padStart(2, '0')`). -/
def pad2 (l : List Char) : List Char :=
  if l.length < 2 then '0' :: l else l

/-- `formatTime(date)`: `HH:MM` (the `minutes === 0` branch of the source
produces the same text as the general branch). -/
def formatTime (t : Int) : List Char :=
  let hours := dateGetHours t
  let minutes := dateGetMinutes t
  if minutes = 0 then pad2 (natDigits hours.toNat) ++ [':', '0', '0']
  else pad2 (natDigits hours.toNat) ++ ':' :: pad2 (natDigits minutes.toNat)

/-- `getElapsedTime` core: minutes from the session start `s` to `now`,
with the +24h rollover correction and the floor/clamp of the source. -/
def elapsedCore (s now : Int) : Int :=
  let elapsedTimeInMinutes : ℚ := ((now - s : Int) : ℚ) / 60000
  let adjusted := if elapsedTimeInMinutes < 0 then elapsedTimeInMinutes + 24 * 60
    else elapsedTimeInMinutes
  max 0 ⌊adjusted⌋

/-- `getElapsedTime(content)`: 0 when no `startTime:` marker exists. -/
def getElapsedTime (content : List Char) (now : Int) : Int :=
  match getYamlStartTime content now with
  | none => 0
  | some s => elapsedCore s now

/-- Character codes excluded from a tag body by the pattern
`/#([^\s!#$%&'()*+,.\/:;<=>?@[\\\]^`{|}~]+)/gu` (the punctuation list,
by ASCII code). -/
def tagPunct : List Nat :=
  [33, 35, 36, 37, 38, 39, 40, 41, 42, 43, 44, 46, 47, 58, 59, 60, 61, 62,
   63, 64, 91, 92, 93, 94, 96, 123, 124, 125, 126]

/-- A character allowed in a tag body: not whitespace and not in the
excluded punctuation list. -/
def isTagBodyChar (c : Char) : Bool :=
  ¬ jsIsSpace c && ¬ (c.toNat ∈ tagPunct)

/-- Scanner for the global tag pattern, processing one character at a
time (structurally, so that proofs can evaluate it).  The second argument
is the reversed body of the tag currently being read, `none` when no `#`
is open.  This is the usual left-to-right `/g` scan: a `#` opens a tag, a
maximal nonempty run of body characters after it is a match (kept with
its `#`), and a `#` with no body characters matches nothing. -/
def findTagsAux : List Char → Option (List Char) → List (List Char)
  | [], none => []
  | [], some acc => if acc = [] then [] else [('#' :: acc.reverse)]
  | c :: cs, none =>
    if c = '#' then findTagsAux cs (some []) else findTagsAux cs none
  | c :: cs, some acc =>
    if isTagBodyChar c then findTagsAux cs (some (c :: acc))
    else if acc = [] then
      if c = '#' then findTagsAux cs (some []) else findTagsAux cs none
    else
      ('#' :: acc.reverse) ::
        (if c = '#' then findTagsAux cs (some []) else findTagsAux cs none)

/-- All matches of the global tag pattern, in order; each match keeps its
leading `#` (the source joins the full matches with spaces). -/
def findTags (l : List Char) : List (List Char) := findTagsAux l none

/-- `line.match(tagPattern)?.join(' ') || ''`. -/
def tagsOf (line : List Char) : List Char :=
  match findTags line with
  | [] => []
  | t :: ts => t ++ (ts.map (fun u => ' ' :: u)).flatten

/-- JS `str.replace(pat, '')` with a plain-string pattern: remove the
first occurrence of `pat`; the empty pattern leaves the string unchanged. -/
def replaceFirst (s pat : List Char) : List Char :=
  if pat = [] then s else go s
where
  go : List Char → List Char
    | [] => []
    | c :: cs =>
      if listStartsWith (c :: cs) pat then (c :: cs).drop pat.length
      else c :: go cs

/-- Optional-estimate part `(\d+\.?\d*)?` of the task-line pattern,
matched greedily; greedy matching is equivalent to backtracking here
because after fewer digits the next character is a digit, which none of
the following pattern parts can start with. -/
def estimatePartRest (cs : List Char) : List Char :=
  match cs with
  | c :: _ =>
    if jsIsDigit c then
      let d1 := cs.takeWhile jsIsDigit
      let r1 := cs.drop d1.length
      match r1 with
      | '.' :: r2 => r2.drop ((r2.takeWhile jsIsDigit).length)
      | _ => r1
    else cs
  | [] => []

/-- Remainders after `[:]?\d{2}` given the hour digits already consumed,
in backtracking preference order. -/
def timeRestsAfterHour (rest : List Char) : List (List Char) :=
  match rest with
  | ':' :: c :: d :: r => if jsIsDigit c && jsIsDigit d then [r] else []
  | c :: d :: r => if jsIsDigit c && jsIsDigit d then [r] else []
  | _ => []

/-- Remainders after `\d{1,2}[:]?\d{2}`, in backtracking preference
order (two-digit hour first). -/
def timeRests (cs : List Char) : List (List Char) :=
  match cs with
  | a :: b :: rest =>
    (if jsIsDigit a && jsIsDigit b then timeRestsAfterHour rest else []) ++
    (if jsIsDigit a then timeRestsAfterHour (b :: rest) else [])
  | _ => []

/-- Remainders after the optional group `(\s*@\s*\d{1,2}[:]?\d{2})?`:
first those where the group matched, then the group skipped. -/
def atGroupRests (cs : List Char) : List (List Char) :=
  (match skipWs cs with
   | '@' :: r2 => timeRests (skipWs r2)
   | _ => []) ++ [cs]

/-- Match of the tail `\s*;\s*(\d+\.?\d*)?(\s*@\s*\d{1,2}[:]?\d{2})?(\s*#.*)?\s*$`
of the task-line pattern of `updateTaskInContent`. -/
def matchTaskTail (cs : List Char) : Bool :=
  match skipWs cs with
  | ';' :: r2 =>
    (atGroupRests (estimatePartRest (skipWs r2))).any (fun r4 =>
      match skipWs r4 with
      | '#' :: _ => true
      | _ => r4.all jsIsSpace)
  | _ => false

/-- The lazy `(.+?)` split: find the shortest nonempty prefix of `body`
after which `matchTaskTail` succeeds, returning that prefix (capture
group 1, the task name). -/
def findLazyName (pre : List Char) : List Char → Option (List Char)
  | [] => none
  | c :: cs =>
    if matchTaskTail cs then some (pre ++ [c])
    else findLazyName (pre ++ [c]) cs

/-- `line.match(taskRegex)`, specialised to the default delimiter: the
pattern `/^- \[ \] (.+?)\s*;\s*(\d+\.?\d*)?(\s*@\s*\d{1,2}[:]?\d{2})?(\s*#.*)?\s*$/`
applied to one line; returns capture group 1 on success. -/
def taskLineMatch (line : List Char) : Option (List Char) :=
  if listStartsWith line ('-' :: ' ' :: '[' :: ' ' :: ']' :: ' ' :: []) then
    findLazyName [] (line.drop 6)
  else none

/-- The `elapsedTime` / `remainingTime` pair passed to
`updateTaskInContent` (`remainingTime === undefined` means Complete). -/
structure TaskUpdate where
  elapsedTime : Int
  remainingTime : Option Int

/-- The completed replacement line built by `updateTaskInContent`. -/
def completedLine (name tags : List Char) (elapsedTime now : Int) : List Char :=
  let actualStartTime := now - elapsedTime * 60 * 1000
  ('-' :: ' ' :: '[' :: 'x' :: ']' :: ' ' :: []) ++
    jsTrim (replaceFirst name tags) ++
    (' ' :: ';' :: ' ' :: []) ++ jsToFixed0 elapsedTime ++
    (' ' :: '@' :: ' ' :: []) ++ formatTime actualStartTime ++
    ' ' :: tags

/-- The new pending line inserted on interrupt. -/
def pendingLine (name tags : List Char) (remainingTime : Int) : List Char :=
  ('-' :: ' ' :: '[' :: ' ' :: ']' :: ' ' :: []) ++
    jsTrim (replaceFirst name tags) ++
    (' ' :: ';' :: ' ' :: []) ++ jsToFixed0 remainingTime ++
    ' ' :: tags

/-- The line loop of `updateTaskInContent`: rewrite the first matching
line (and insert the pending line when interrupting), leave everything
else untouched. -/
def rewriteLines (now : Int) (u : TaskUpdate) : List (List Char) → List (List Char)
  | [] => []
  | line :: rest =>
    match taskLineMatch line with
    | none => line :: rewriteLines now u rest
    | some name =>
      let tags := tagsOf line
      let newLine := completedLine name tags u.elapsedTime now
      match u.remainingTime with
      | none => newLine :: rest
      | some rem => newLine :: pendingLine name tags rem :: rest

/-- `updateTaskInContent(content, {elapsedTime, remainingTime})`. -/
def updateTaskInContent (content : List Char) (now : Int) (u : TaskUpdate) :
    List Char :=
  joinLines (rewriteLines now u (splitLines content))

/-- The content transformation of `updateTask(task, remainingTime)` up to
the first vault write: a no-op when the task has no estimate, otherwise
`updateTaskInContent` with the computed elapsed time.  (The subsequent
session-marker rewrite by `updateStartTimeInYAML` is a separate write and
is not part of the claims modelled here.) -/
def updateTask (content : List Char) (now : Int)
    (taskEstimate : Option (List Char)) (remainingTime : Option Int) :
    List Char :=
  if TP2.estTruthy taskEstimate then
    updateTaskInContent content now
      { elapsedTime := getElapsedTime content now, remainingTime := remainingTime }
  else content

/-- `interruptTask()`: parse, take the first uncompleted task, compute
`remainingTime = max(0, ceil(estimate - elapsedTime))`, and delegate to
`updateTask`. -/
def interruptTask (content : List Char) (now : Int) : List Char :=
  let tasks := TP2.filterAndParseTasksDefault content now
  let elapsedTime := getElapsedTime content now
  match tasks.find? (fun t => ¬ t.isCompleted) with
  | none => content
  | some t =>
    let remainingTime : Int :=
      match t.estimate with
      | some ds => max 0 ⌈((digitsToNat ds : ℚ) - (elapsedTime : ℚ))⌉
      | none => 0
    updateTask content now t.estimate (some remainingTime)

/-- `completeTask(task)` = `updateTask(task, undefined)`, with `task` the
first uncompleted task (as the view component supplies it). -/
def completeTask (content : List Char) (now : Int) : List Char :=
  match (TP2.filterAndParseTasksDefault content now).find? (fun t => ¬ t.isCompleted) with
  | none => content
  | some t => updateTask content now t.estimate none

/-- The rolling-window update of `updateDictionaryFile`
(`recentTimes.push(elapsedTime); if (recentTimes.length > 20)
recentTimes.shift();`). -/
def updateRecentTimes (recentTimes : List ℚ) (elapsedTime : ℚ) : List ℚ :=
  let r := recentTimes ++ [elapsedTime]
  if 20 < r.length then r.tail else r

/-- JS `values.sort((a, b) => a - b)`: numeric ascending sort.  On `ℚ`
the ascending ordering determines the result uniquely, so any sorting
algorithm is an exact model. -/
def sortAsc (values : List ℚ) : List ℚ :=
  List.insertionSort (· ≤ ·) values

/-- `calculateMedian(values)`: sorted middle, average of the two middles
for an even count, `Math.ceil`-rounded.  (For the empty list the source
produces `NaN`; the `getD` default `0` makes the model total there, and
every claim below is about nonempty inputs.) -/
def calculateMedian (values : List ℚ) : Int :=
  let sorted := sortAsc values
  let mid := sorted.length / 2
  let median : ℚ :=
    if sorted.length % 2 ≠ 0 then sorted.getD mid 0
    else (sorted.getD (mid - 1) 0 + sorted.getD mid 0) / 2
  ⌈median⌉

/-- `calculateTrimmedMean(values)`: with more than two samples, drop the
largest and smallest of the sorted list (`pop` then `shift`) and ceil the
mean of the rest; otherwise `Math.ceil` of the median. -/
def calculateTrimmedMean (values : List ℚ) : Int :=
  if values.length ≤ 2 then ⌈((calculateMedian values : ℚ))⌉
  else
    let trimmed := ((sortAsc values).dropLast).tail
    ⌈trimmed.sum / (trimmed.length : ℚ)⌉

end TaskManager

namespace TP21

/-!
Embedding of the `TaskParser` class of src/unnamed/part_021 that defines
`parseTasksFromContent` (cited by claim C4), at the default delimiters.
Its `Task` objects carry `previousEndTime` and `isChecked`; the
name-only `task` field is again omitted. -/

/-- One parsed task of `parseTasksFromContent`. -/
structure QTask where
  startTime : Option Int
  previousEndTime : Option Int
  estimate : Option (List Char)
  isChecked : Bool
  deriving Repr, DecidableEq

/-- `isTaskLine(line)`: starts with one of the six checklist markers and
contains the estimate or start-time delimiter. -/
def isTaskLine (line : List Char) : Bool :=
  TP2.isTaskPrefixLine line && (';' ∈ line || '@' ∈ line)

/-- `isCheckedTaskLine(line)`. -/
def isCheckedTaskLine (line : List Char) : Bool :=
  TP2.isCompletedLine line

/-- The date-time group of this variant, `(\d{4}-\d{2}-\d{2}T\d{1,2}\:?\d{2})`:
the colon is optional.  `new Date` on the colon-less compact form is an
invalid date, so only the colon forms produce a value. -/
def dateTimeGroupAt21 (cs : List Char) : Option (Nat × Nat × Nat × (List Char)) :=
  match cs with
  | y1 :: y2 :: y3 :: y4 :: '-' :: o1 :: o2 :: '-' :: d1 :: d2 :: 'T' :: rest =>
    if [y1, y2, y3, y4, o1, o2, d1, d2].all jsIsDigit then
      match timeGroupAt rest with
      | some cap =>
        some (digitsToNat [y1, y2, y3, y4], digitsToNat [o1, o2],
              digitsToNat [d1, d2], cap)
      | none => none
    else none
  | _ => none

/-- Leftmost match of this variant's date-time pattern. -/
def findDateTimeMatch21 : List Char → Option (Nat × Nat × Nat × (List Char))
  | [] => none
  | c :: cs =>
    if c = '@' then
      match dateTimeGroupAt21 (skipWs cs) with
      | some g => some g
      | none => findDateTimeMatch21 cs
    else findDateTimeMatch21 cs

/-- `parseStartTime(task, currentDate, nextDay)` of this variant:
`timeSplit` splits a colon-less three-digit capture as `H`/`MM` and a
four-digit one as `HH`/`MM`; the anchor is `currentDate` shifted by
`nextDay` days with `setHours(hours, minutes, 0, 0)`. -/
def parseStartTime (task : List Char) (currentDate : Int) (nextDay : Int) :
    Option Int :=
  match findDateTimeMatch21 task with
  | some (y, mo, d, cap) =>
    if ':' ∈ cap then
      let h := digitsToNat (cap.takeWhile (fun c => c ≠ ':'))
      let mi := digitsToNat ((cap.dropWhile (fun c => c ≠ ':')).drop 1)
      jsDateParseIso y mo d h mi
    else none
  | none =>
    match findTimeMatch task with
    | some cap =>
      let timeSplit : List Char × List Char :=
        if ¬ (':' ∈ cap) then
          if cap.length = 3 then (cap.take 1, (cap.drop 1).take 2)
          else (cap.take 2, ((cap.drop 2).take 2))
        else (cap.takeWhile (fun c => c ≠ ':'), (cap.dropWhile (fun c => c ≠ ':')).drop 1)
      some (dateSetHoursMinutesZero (dateAddDays currentDate nextDay)
        (digitsToNat timeSplit.1) (digitsToNat timeSplit.2))
    | none => none

/-- State threaded through the line loop of `parseTasksFromContent`. -/
structure QState where
  nextDay : Int
  previousEndTime : Option Int
  foundTask : Bool
  deriving Repr, DecidableEq

/-- Initial loop state. -/
def initQState : QState :=
  { nextDay := 0, previousEndTime := none, foundTask := false }

/-- One iteration of the line loop: the task produced by the line (if
any) and the updated state.  `dd` is the `dateDelimiter` test. -/
def lineStep (dd : List Char → Bool) (currentDate : Int) (st : QState)
    (line : List Char) : Option QTask × QState :=
  if dd line then
    (none, if st.foundTask then { st with nextDay := st.nextDay + 1 } else st)
  else if ¬ isTaskLine line then (none, st)
  else
    let startTime := parseStartTime line currentDate st.nextDay
    let estimate := findEstimateMatch line
    let isChecked := isCheckedTaskLine line
    let task : QTask :=
      { startTime := startTime, previousEndTime := st.previousEndTime,
        estimate := estimate, isChecked := isChecked }
    let previousEndTime :=
      match startTime, estimate with
      | some s, some ds => some (s + (digitsToNat ds : Int) * 60 * 1000)
      | _, _ => st.previousEndTime
    (some task, { nextDay := st.nextDay, previousEndTime := previousEndTime,
                  foundTask := true })

/-- The loop of `parseTasksFromContent`, carrying the `completedTasks`
(`unshift`, most recent first) and `uncompletedTasks` (`push`) arrays. -/
def parseLoop (dd : List Char → Bool) (currentDate : Int) :
    List (List Char) → QState → List QTask → List QTask →
    List QTask × List QTask
  | [], _, completed, uncompleted => (completed, uncompleted)
  | line :: rest, st, completed, uncompleted =>
    match lineStep dd currentDate st line with
    | (none, st') => parseLoop dd currentDate rest st' completed uncompleted
    | (some t, st') =>
      if t.isChecked then parseLoop dd currentDate rest st' (t :: completed) uncompleted
      else parseLoop dd currentDate rest st' completed (uncompleted ++ [t])

/-- `parseTasksFromContent(content)`: the loop over trimmed lines,
returning `[...uncompletedTasks, ...completedTasks]`. -/
def parseTasksFromContent (dd : List Char → Bool) (content : List Char)
    (currentDate : Int) : List QTask :=
  let lines := (splitLines content).map jsTrim
  let (completed, uncompleted) := parseLoop dd currentDate lines initQState [] []
  uncompleted ++ completed

/-- The tasks of a document in pure discovery (document) order: the same
line loop, with every produced task collected in order.  This is the
specification-side sequence used to state what ordering
`parseTasksFromContent` actually produces. -/
def tasksInDocumentOrder (dd : List Char → Bool) (currentDate : Int) :
    List (List Char) → QState → List QTask
  | [], _ => []
  | line :: rest, st =>
    match lineStep dd currentDate st line with
    | (none, st') => tasksInDocumentOrder dd currentDate rest st'
    | (some t, st') => t :: tasksInDocumentOrder dd currentDate rest st'

/-- Document-order task list of a whole content string. -/
def docTasks (dd : List Char → Bool) (content : List Char)
    (currentDate : Int) : List QTask :=
  tasksInDocumentOrder dd currentDate ((splitLines content).map jsTrim) initQState

end TP21

namespace TVC

/-!
Embedding of the schedule-view helpers of
src/src/TimetableViewComponent.tsx (first variant, cited by claim C5). -/

/-- `calculateBufferTime(currentTaskEndTime, taskStartTime)`:
`Math.ceil((start - end) / 60000)` when both dates exist, else null. -/
def calculateBufferTime (currentTaskEndTime taskStartTime : Option Int) :
    Option Int :=
  match currentTaskEndTime, taskStartTime with
  | some e, some s => some ⌈(((s - e : Int) : ℚ) / (60 * 1000))⌉
  | _, _ => none

/-- The `bufferClass` computation: `bufferTime` must be truthy (non-null
and nonzero) and the task uncompleted; negative is `late`, otherwise
`on-time`. -/
def bufferClass (bufferTime : Option Int) (isCompleted : Bool) : String :=
  match bufferTime with
  | some b =>
    if b ≠ 0 ∧ isCompleted = false then (if b < 0 then "late" else "on-time")
    else ""
  | none => ""

end TVC

/-! ## General lemmas about the string model -/

theorem splitLines_ne_nil (s : List Char) : splitLines s ≠ [] := by
  cases s with
  | nil => simp [splitLines]
  | cons c cs =>
    simp only [splitLines]
    split
    · simp
    · split <;> simp

theorem joinLines_splitLines (s : List Char) : joinLines (splitLines s) = s := by
  induction s with
  | nil => simp [splitLines, joinLines]
  | cons c cs ih =>
    simp only [splitLines]
    by_cases h : c = '\n'
    · subst h
      simp only [if_pos rfl]
      rcases hs : splitLines cs with _ | ⟨l, ls⟩
      · exact absurd hs (splitLines_ne_nil cs)
      · rw [hs] at ih
        simp [joinLines, ih]
    · rw [if_neg h]
      rcases hs : splitLines cs with _ | ⟨l, ls⟩
      · exact absurd hs (splitLines_ne_nil cs)
      · rw [hs] at ih
        cases ls with
        | nil => simpa [joinLines] using congrArg (c :: ·) ih
        | cons l2 ls2 => simpa [joinLines] using congrArg (c :: ·) ih

/-! ## C5: buffer computation and lateness classification -/

/-- C5: for consecutive tasks where the later one has a start time and
the earlier one an end time, the buffer is `ceil((start - end) / 60000)`
minutes; a strictly negative buffer classifies the uncompleted task
"late", a positive one "on-time"; concretely, end 09:20 against explicit
start 09:10 gives buffer −10, classified late. -/
theorem C5_buffer_lateness :
    (∀ e s : Int, TVC.calculateBufferTime (some e) (some s) =
        some ⌈(((s - e : Int) : ℚ) / 60000)⌉) ∧
    (∀ b : Int, b < 0 → TVC.bufferClass (some b) false = "late") ∧
    (∀ b : Int, 0 < b → TVC.bufferClass (some b) false = "on-time") ∧
    TVC.calculateBufferTime (some (9 * 3600000 + 20 * 60000))
        (some (9 * 3600000 + 10 * 60000)) = some (-10) ∧
    TVC.bufferClass (TVC.calculateBufferTime (some (9 * 3600000 + 20 * 60000))
        (some (9 * 3600000 + 10 * 60000))) false = "late" := by
  refine ⟨fun e s => ?_, fun b hb => ?_, fun b hb => ?_, ?_, ?_⟩
  · simp [TVC.calculateBufferTime]
    norm_num
  · have hne : b ≠ 0 := by omega
    simp [TVC.bufferClass, hne, hb]
  · have hne : b ≠ 0 := by omega
    have hnlt : ¬ b < 0 := by omega
    simp [TVC.bufferClass, hne, hnlt]
  · simp only [TVC.calculateBufferTime]
    rw [show (((9 * 3600000 + 10 * 60000 - (9 * 3600000 + 20 * 60000) : Int) : ℚ) / (60 * 1000))
          = ((-10 : Int) : ℚ) from by push_cast; norm_num, Int.ceil_intCast]
  · simp only [TVC.calculateBufferTime]
    rw [show (((9 * 3600000 + 10 * 60000 - (9 * 3600000 + 20 * 60000) : Int) : ℚ) / (60 * 1000))
          = ((-10 : Int) : ℚ) from by push_cast; norm_num, Int.ceil_intCast]
    decide

/-- C5 witness: the classification parts of `C5_buffer_lateness` applied
at buffers −10 and 7. -/
theorem C5_buffer_lateness_witness :
    TVC.bufferClass (some (-10)) false = "late" ∧
    TVC.bufferClass (some 7) false = "on-time" :=
  ⟨C5_buffer_lateness.2.1 (-10) (by norm_num),
   C5_buffer_lateness.2.2.1 7 (by norm_num)⟩

/-! ## C7: elapsed-time rollover correction -/

/-- C7: elapsed minutes are `max(0, floor((now − s) / 60000))` when
`now ≥ s`; when the raw difference is negative, 24×60 minutes are added
before flooring; the result is always non-negative; and `getElapsedTime`
uses this computation whenever a session marker exists. -/
theorem C7_elapsed_rollover :
    ∀ s now : Int,
      (s ≤ now → TaskManager.elapsedCore s now =
          max 0 ⌊(((now - s : Int) : ℚ) / 60000)⌋) ∧
      (now < s → TaskManager.elapsedCore s now =
          max 0 ⌊(((now - s : Int) : ℚ) / 60000 + 24 * 60)⌋) ∧
      0 ≤ TaskManager.elapsedCore s now ∧
      (∀ content, getYamlStartTime content now = some s →
          TaskManager.getElapsedTime content now = TaskManager.elapsedCore s now) := by
  intro s now
  have h60 : (0 : ℚ) < 60000 := by norm_num
  have hiff : (((now - s : Int) : ℚ) / 60000 < 0) ↔ now < s := by
    rw [div_lt_iff₀ h60, zero_mul, Int.cast_lt_zero]
    omega
  refine ⟨fun h => ?_, fun h => ?_, ?_, fun content hc => ?_⟩
  · simp only [TaskManager.elapsedCore]
    rw [if_neg (by rw [hiff]; omega)]
  · simp only [TaskManager.elapsedCore]
    rw [if_pos (by rw [hiff]; omega)]
  · simp only [TaskManager.elapsedCore]
    split <;> exact le_max_left 0 _
  · simp only [TaskManager.getElapsedTime, hc]

/-- C7 witness: `C7_elapsed_rollover` at `s = 0`, `now = 300000`
(five minutes) and at `s = 600000`, `now = 0` (rollover branch). -/
theorem C7_elapsed_rollover_witness :
    TaskManager.elapsedCore 0 300000 =
      max 0 ⌊(((300000 - 0 : Int) : ℚ) / 60000)⌋ ∧
    TaskManager.elapsedCore 600000 0 =
      max 0 ⌊(((0 - 600000 : Int) : ℚ) / 60000 + 24 * 60)⌋ :=
  ⟨(C7_elapsed_rollover 0 300000).1 (by norm_num),
   (C7_elapsed_rollover 600000 0).2.1 (by norm_num)⟩

/-! ## C9: trimmed-mean fallback -/

/-- C9: with at most two samples the trimmed mean is exactly the median
calculation; with more, it is the ceiling of the mean of the sorted list
with its single largest and single smallest values removed. -/
theorem C9_trimmed_mean_fallback :
    ∀ values : List ℚ,
      (values.length ≤ 2 →
        TaskManager.calculateTrimmedMean values = TaskManager.calculateMedian values) ∧
      (2 < values.length →
        (TaskManager.sortAsc values).Perm values ∧
        List.Sorted (· ≤ ·) (TaskManager.sortAsc values) ∧
        TaskManager.calculateTrimmedMean values =
          ⌈((((TaskManager.sortAsc values).dropLast).tail).sum /
            (((((TaskManager.sortAsc values).dropLast).tail).length : ℚ)))⌉) := by
  intro values
  constructor
  · intro h
    simp only [TaskManager.calculateTrimmedMean, if_pos h, Int.ceil_intCast]
  · intro h
    refine ⟨List.perm_insertionSort _ _, List.sorted_insertionSort _ _, ?_⟩
    simp only [TaskManager.calculateTrimmedMean]
    rw [if_neg (by omega)]

/-- C9 witness: `C9_trimmed_mean_fallback` at `[3, 5]` (fallback branch)
and `[1, 10, 2, 8]` (trimming branch). -/
theorem C9_trimmed_mean_fallback_witness :
    (TaskManager.calculateTrimmedMean [3, 5] = TaskManager.calculateMedian [3, 5]) ∧
    ((TaskManager.sortAsc [1, 10, 2, 8]).Perm [1, 10, 2, 8] ∧
      List.Sorted (· ≤ ·) (TaskManager.sortAsc [1, 10, 2, 8]) ∧
      TaskManager.calculateTrimmedMean [1, 10, 2, 8] =
        ⌈((((TaskManager.sortAsc [1, 10, 2, 8]).dropLast).tail).sum /
          (((((TaskManager.sortAsc [1, 10, 2, 8]).dropLast).tail).length : ℚ)))⌉) :=
  ⟨(C9_trimmed_mean_fallback [3, 5]).1 (by norm_num),
   (C9_trimmed_mean_fallback [1, 10, 2, 8]).2 (by norm_num)⟩

/-! ## C6: historical window bound -/

theorem updateRecentTimes_eq (l : List ℚ) (x : ℚ) (h : l.length ≤ 20) :
    TaskManager.updateRecentTimes l x = (l ++ [x]).drop (l.length + 1 - 20) := by
  simp only [TaskManager.updateRecentTimes]
  rcases Nat.lt_or_ge l.length 20 with hlt | hge
  · rw [if_neg (by simp only [List.length_append, List.length_singleton]; omega)]
    have h0 : l.length + 1 - 20 = 0 := by omega
    rw [h0, List.drop_zero]
  · have h20 : l.length = 20 := le_antisymm h hge
    rw [if_pos (by simp only [List.length_append, List.length_singleton]; omega)]
    have h1 : l.length + 1 - 20 = 1 := by omega
    rw [h1, ← List.drop_one]

theorem foldl_updateRecentTimes (ds : List ℚ) :
    ∀ l : List ℚ, l.length ≤ 20 →
      List.foldl TaskManager.updateRecentTimes l ds =
        (l ++ ds).drop (l.length + ds.length - 20) := by
  induction ds with
  | nil =>
    intro l h
    simp only [List.foldl_nil, List.append_nil, List.length_nil, Nat.add_zero]
    rw [Nat.sub_eq_zero_of_le h, List.drop_zero]
  | cons x ds ih =>
    intro l h
    simp only [List.foldl_cons]
    have hlen : (TaskManager.updateRecentTimes l x).length ≤ 20 := by
      rw [updateRecentTimes_eq l x h]
      simp only [List.length_drop, List.length_append, List.length_singleton]
      omega
    rw [ih _ hlen, updateRecentTimes_eq l x h,
      ← List.drop_append_of_le_length
        (by simp only [List.length_append, List.length_singleton]; omega),
      List.drop_drop]
    have harr : (l ++ [x]) ++ ds = l ++ x :: ds := by simp
    rw [harr]
    congr 1
    simp only [List.length_drop, List.length_append, List.length_singleton,
      List.length_cons, List.length_nil]
    omega

/-- C6: starting from a stored list of at most 20 durations, any number
of window updates keeps the length at most 20 and leaves exactly the
most recent 20 observations in arrival order (FIFO); in particular, 25
completions starting from an empty record keep the last 20 of the 25. -/
theorem C6_recent_window :
    (∀ (l ds : List ℚ), l.length ≤ 20 →
      (List.foldl TaskManager.updateRecentTimes l ds).length ≤ 20 ∧
      List.foldl TaskManager.updateRecentTimes l ds =
        (l ++ ds).drop ((l ++ ds).length - 20)) ∧
    List.foldl TaskManager.updateRecentTimes ([] : List ℚ)
        ((List.range 25).map (fun n : Nat => (n : ℚ))) =
      ((List.range 25).map (fun n : Nat => (n : ℚ))).drop 5 ∧
    (List.foldl TaskManager.updateRecentTimes ([] : List ℚ)
        ((List.range 25).map (fun n : Nat => (n : ℚ)))).length = 20 := by
  have hgen : ∀ (l ds : List ℚ), l.length ≤ 20 →
      (List.foldl TaskManager.updateRecentTimes l ds).length ≤ 20 ∧
      List.foldl TaskManager.updateRecentTimes l ds =
        (l ++ ds).drop ((l ++ ds).length - 20) := by
    intro l ds h
    have heq := foldl_updateRecentTimes ds l h
    have hlen : (l ++ ds).length = l.length + ds.length := List.length_append l ds
    refine ⟨?_, by rw [heq, hlen]⟩
    rw [heq]
    simp only [List.length_drop, List.length_append]
    omega
  have hlen25 : (((List.range 25).map (fun n : Nat => (n : ℚ)))).length = 25 := by
    rw [List.length_map, List.length_range]
  have h := (hgen [] ((List.range 25).map (fun n : Nat => (n : ℚ)))
    (by rw [List.length_nil]; omega)).2
  rw [List.nil_append] at h
  refine ⟨hgen, ?_, ?_⟩
  · rw [h, hlen25]
  · rw [h, List.length_drop, hlen25]

/-- C6 witness: the general window bound of `C6_recent_window` applied to
the stored list `[1, 2]` and new observations `[3, 4]`. -/
theorem C6_recent_window_witness :
    (List.foldl TaskManager.updateRecentTimes [1, 2] [3, 4]).length ≤ 20 ∧
    List.foldl TaskManager.updateRecentTimes ([1, 2] : List ℚ) [3, 4] =
      (([1, 2] : List ℚ) ++ [3, 4]).drop ((([1, 2] : List ℚ) ++ [3, 4]).length - 20) :=
  C6_recent_window.1 [1, 2] [3, 4] (by norm_num)

namespace TP2

theorem getElem?_some_lt {α : Type} {l : List α} {i : Nat} {a : α}
    (h : l[i]? = some a) : i < l.length := by
  by_contra hc
  rw [List.getElem?_eq_none (by omega)] at h
  cases h

theorem mem_of_getElem?_eq_some {α : Type} {l : List α} {i : Nat} {a : α}
    (h : l[i]? = some a) : a ∈ l := by
  have hlt := getElem?_some_lt h
  rw [List.getElem?_eq_getElem hlt] at h
  cases h
  exact List.getElem_mem hlt

theorem chooseFirstFound_of_found (st : PState) (ic : Bool)
    (h : st.firstUncompletedTaskFound = true) : chooseFirstFound st ic = true := by
  simp [chooseFirstFound, h]

theorem chooseFirstFound_of_uncompleted (st : PState) (ic : Bool)
    (h : ic = false) : chooseFirstFound st ic = true := by
  by_cases hff : st.firstUncompletedTaskFound = true
  · simp [chooseFirstFound, hff]
  · have hf : st.firstUncompletedTaskFound = false := by
      cases hv : st.firstUncompletedTaskFound
      · rfl
      · exact absurd hv hff
    simp [chooseFirstFound, h, hf]

theorem chooseStartTime_not_first (st : PState) (ic : Bool) (yaml s0 : Option Int)
    (hcond : ic = true ∨ st.firstUncompletedTaskFound = true) :
    chooseStartTime st ic yaml s0 =
      if s0 = none ∧ st.previousEndTime ≠ none then st.previousEndTime else s0 := by
  rcases hcond with hc | hc <;> simp [chooseStartTime, hc]

theorem inv_push (st : PState) (yaml : Option Int) (ic : Bool)
    (est : Option (List Char)) (s0 : Option Int) (nd : Int) (h : Inv st) :
    Inv (let startTime := chooseStartTime st ic yaml s0
         let endTime := computeEndTime startTime (if estTruthy est then est else none)
         { previousEndTime := match endTime with
             | some e => some e
             | none => st.previousEndTime,
           firstUncompletedTaskFound := chooseFirstFound st ic,
           nextDay := nd, dateDelimiterFound := false, stopParsing := st.stopParsing,
           acc := if estTruthy est then
               st.acc ++ [{ startTime := startTime, estimate := est, endTime := endTime,
                            isCompleted := ic, originalStartTime := s0.isSome,
                            parsedStartTime := s0 }]
             else st.acc }) := by
  classical
  obtain ⟨hLast, hUnc, hChain, hExpl⟩ := h
  by_cases hest : estTruthy est = true
  · -- a task is pushed
    obtain ⟨ds, rfl⟩ : ∃ ds, est = some ds := by
      cases est with
      | none => simp [estTruthy] at hest
      | some ds => exact ⟨ds, rfl⟩
    dsimp only
    rw [if_pos hest, if_pos hest]
    refine ⟨?_, ?_, ?_, ?_⟩
    · -- previous end time tracks the last pushed task
      intro t hlast e hend
      dsimp only at hlast ⊢
      simp only [List.getLast?_append, List.getLast?_singleton] at hlast
      obtain rfl := Option.some.inj hlast
      dsimp only at hend
      rw [hend]
    · -- an uncompleted task in the accumulator means firstFound is set
      intro hex
      dsimp only at hex ⊢
      obtain ⟨t, hmem, hunc⟩ := hex
      rcases List.mem_append.mp hmem with hin | hnew
      · exact chooseFirstFound_of_found st ic (hUnc ⟨t, hin, hunc⟩)
      · obtain rfl := List.mem_singleton.mp hnew
        dsimp only at hunc
        exact chooseFirstFound_of_uncompleted st ic hunc
    · -- chaining
      intro i e ti tj hgi hgj hie hjo hjc
      dsimp only at hgi hgj hjc ⊢
      have hjlt := getElem?_some_lt hgj
      rw [List.length_append, List.length_singleton] at hjlt
      rcases Nat.lt_or_ge (i + 1) st.acc.length with hlt | hge
      · rw [List.getElem?_append_left hlt] at hgj
        rw [List.getElem?_append_left (by omega)] at hgi
        refine hChain i e ti tj hgi hgj hie hjo ?_
        rcases hjc with hc | ⟨j, hj, tk, hgk, hk⟩
        · exact Or.inl hc
        · rw [List.getElem?_append_left (by omega)] at hgk
          exact Or.inr ⟨j, hj, tk, hgk, hk⟩
      · have hieq : i + 1 = st.acc.length := by omega
        rw [hieq, List.getElem?_concat_length] at hgj
        obtain rfl := Option.some.inj hgj
        rw [List.getElem?_append_left (by omega)] at hgi
        have hlast2 : st.acc.getLast? = some ti := by
          rw [List.getLast?_eq_getElem?]
          have h1 : st.acc.length - 1 = i := by omega
          rw [h1]
          exact hgi
        have hpe := hLast ti hlast2 e hie
        dsimp only at hjo
        have hs0 : s0 = none := by
          cases s0
          · rfl
          · simp at hjo
        have hcond : ic = true ∨ st.firstUncompletedTaskFound = true := by
          rcases hjc with hc | ⟨j, hj, tk, hgk, hk⟩
          · dsimp only at hc
            exact Or.inl hc
          · rw [List.getElem?_append_left (by omega)] at hgk
            exact Or.inr (hUnc ⟨tk, mem_of_getElem?_eq_some hgk, hk⟩)
        have hstv : chooseStartTime st ic yaml s0 = some e := by
          rw [chooseStartTime_not_first st ic yaml s0 hcond,
            if_pos ⟨hs0, by rw [hpe]; simp⟩]
          exact hpe
        refine ⟨?_, ?_⟩
        · dsimp only
          exact hstv
        · intro ds2 hds2
          dsimp only at hds2 ⊢
          obtain rfl := Option.some.inj hds2
          rw [hstv]
          rfl
    · -- explicit start precedence
      intro i v ti hgi hpv hcomp
      dsimp only at hgi hcomp ⊢
      have hilt := getElem?_some_lt hgi
      rw [List.length_append, List.length_singleton] at hilt
      rcases Nat.lt_or_ge i st.acc.length with hlt | hge
      · rw [List.getElem?_append_left hlt] at hgi
        refine hExpl i v ti hgi hpv ?_
        rcases hcomp with hc | ⟨j, hj, tk, hgk, hk⟩
        · exact Or.inl hc
        · rw [List.getElem?_append_left (by omega)] at hgk
          exact Or.inr ⟨j, hj, tk, hgk, hk⟩
      · have hieq : i = st.acc.length := by omega
        rw [hieq, List.getElem?_concat_length] at hgi
        obtain rfl := Option.some.inj hgi
        dsimp only at hpv
        have hcond : ic = true ∨ st.firstUncompletedTaskFound = true := by
          rcases hcomp with hc | ⟨j, hj, tk, hgk, hk⟩
          · dsimp only at hc
            exact Or.inl hc
          · rw [List.getElem?_append_left (by omega)] at hgk
            exact Or.inr (hUnc ⟨tk, mem_of_getElem?_eq_some hgk, hk⟩)
        dsimp only
        rw [chooseStartTime_not_first st ic yaml s0 hcond,
          if_neg (fun hcc => by rw [hpv] at hcc; cases hcc.1)]
        exact hpv
  · -- nothing is pushed
    dsimp only
    rw [if_neg hest, if_neg hest]
    have hend : computeEndTime (chooseStartTime st ic yaml s0) none = none := by
      cases chooseStartTime st ic yaml s0 <;> simp [computeEndTime]
    rw [hend]
    exact ⟨hLast, fun hex => chooseFirstFound_of_found st ic (hUnc hex), hChain, hExpl⟩

theorem processLine_inv (dd su : List Char → Bool) (yaml : Option Int) (now : Int)
    (st : PState) (line : List Char) (h : Inv st) :
    Inv (processLine dd su yaml now st line) := by
  classical
  unfold processLine
  by_cases hstop : st.stopParsing = true
  · rw [if_pos hstop]; exact h
  · rw [if_neg hstop]
    by_cases hdd : dd line = true
    · rw [if_pos hdd]
      by_cases hff : st.firstUncompletedTaskFound = true
      · rw [if_pos hff]; exact h
      · rw [if_neg hff]; exact h
    · rw [if_neg hdd]
      by_cases hsu : su line = true
      · rw [if_pos hsu]; exact h
      · rw [if_neg hsu]
        by_cases hpre : isTaskPrefixLine line = true
        · rw [if_neg (by simp [hpre])]
          exact inv_push st yaml (isCompletedLine line) (parseEstimate line)
            (parseStartTime line
              (if st.dateDelimiterFound then st.nextDay + 1 else st.nextDay) now)
            (if st.dateDelimiterFound then st.nextDay + 1 else st.nextDay) h
        · rw [if_pos (by simp [hpre])]; exact h

theorem foldl_inv (dd su : List Char → Bool) (yaml : Option Int) (now : Int)
    (lines : List (List Char)) :
    ∀ st : PState, Inv st → Inv (List.foldl (processLine dd su yaml now) st lines) := by
  induction lines with
  | nil => intro st h; exact h
  | cons l ls ih =>
    intro st h
    exact ih _ (processLine_inv dd su yaml now st l h)

theorem initState_inv : Inv initState := by
  refine ⟨?_, ?_, ?_, ?_⟩
  · intro t hl
    cases hl
  · intro ⟨t, hmem, _⟩
    cases hmem
  · intro i e ti tj hgi
    rw [show initState.acc = [] from rfl, List.getElem?_nil] at hgi
    cases hgi
  · intro i v ti hgi
    rw [show initState.acc = [] from rfl, List.getElem?_nil] at hgi
    cases hgi

theorem filterAndParseTasks_chainProp (dd su : List Char → Bool)
    (content : List Char) (now : Int) :
    ChainProp (filterAndParseTasks dd su content now) :=
  (foldl_inv dd su (getYamlStartTime content now) now
    ((splitLines content).map jsTrim) initState initState_inv).2.2.1

theorem filterAndParseTasks_explProp (dd su : List Char → Bool)
    (content : List Char) (now : Int) :
    ExplProp (filterAndParseTasks dd su content now) :=
  (foldl_inv dd su (getYamlStartTime content now) now
    ((splitLines content).map jsTrim) initState initState_inv).2.2.2

end TP2

/-- C1 (amended): in every parsed task sequence, a task that is not the
first uncompleted task, has no explicit start time, and whose predecessor
has a computed end time, receives that end time as its computed start
time and ends at it plus its estimate in minutes (`ChainProp`); the first
uncompleted task instead receives the YAML session start.  Concretely,
with the session marker at 09:00, A (`;20`) starts 09:00 and ends 09:20,
and B (`;10`, no start) starts 09:20 and ends 09:30. -/
theorem C1_schedule_chaining :
    (∀ (dd su : List Char → Bool) (content : List Char) (now : Int),
      TP2.ChainProp (TP2.filterAndParseTasks dd su content now)) ∧
    TP2.filterAndParseTasksDefault
        ("---\nstartTime: 09:00:00\n---\n- [ ] A ;20\n- [ ] B ;10".toList)
        1641628800000 =
      [{ startTime := some 1641632400000, estimate := some ['2', '0'],
         endTime := some 1641633600000, isCompleted := false,
         originalStartTime := false, parsedStartTime := none },
       { startTime := some 1641633600000, estimate := some ['1', '0'],
         endTime := some 1641634200000, isCompleted := false,
         originalStartTime := false, parsedStartTime := none }] :=
  ⟨fun dd su content now => TP2.filterAndParseTasks_chainProp dd su content now,
   by decide⟩

/-- C1 witness: the chaining part of `C1_schedule_chaining` applied to
the concrete two-task document at index 0/1. -/
theorem C1_schedule_chaining_witness :
    TP2.PTask.startTime
        { startTime := some 1641633600000, estimate := some ['1', '0'],
          endTime := some 1641634200000, isCompleted := false,
          originalStartTime := false, parsedStartTime := none } = some 1641633600000 :=
  (C1_schedule_chaining.1 (fun _ => false) (fun _ => false)
      ("---\nstartTime: 09:00:00\n---\n- [ ] A ;20\n- [ ] B ;10".toList) 1641628800000
      0 1641633600000
      { startTime := some 1641632400000, estimate := some ['2', '0'],
        endTime := some 1641633600000, isCompleted := false,
        originalStartTime := false, parsedStartTime := none }
      { startTime := some 1641633600000, estimate := some ['1', '0'],
        endTime := some 1641634200000, isCompleted := false,
        originalStartTime := false, parsedStartTime := none }
      (by decide) (by decide) (by decide) (by decide)
      (Or.inr ⟨0, by omega,
        { startTime := some 1641632400000, estimate := some ['2', '0'],
          endTime := some 1641633600000, isCompleted := false,
          originalStartTime := false, parsedStartTime := none },
        by decide, by decide⟩)).1

/-- C1 counterexample: in `- [x] A ;20 @9:00` followed by `- [ ] B ;10`
with no session marker, B has no explicit start time and its predecessor
has computed end time 09:20 (epoch 1641633600000), yet B's computed start
time is `none`, not that end time: being the first uncompleted task, B
was assigned the (absent) YAML session start instead.  This refutes the
claim as stated, which admits no exception for the first uncompleted
task. -/
theorem C1_schedule_chaining_counterexample :
    TP2.filterAndParseTasksDefault ("- [x] A ;20 @9:00\n- [ ] B ;10".toList)
        1641628800000 =
      [{ startTime := some 1641632400000, estimate := some ['2', '0'],
         endTime := some 1641633600000, isCompleted := true,
         originalStartTime := true, parsedStartTime := some 1641632400000 },
       { startTime := none, estimate := some ['1', '0'], endTime := none,
         isCompleted := false, originalStartTime := false, parsedStartTime := none }] ∧
    (none : Option Int) ≠ some 1641633600000 :=
  ⟨by decide, by simp⟩

/-- C2 (amended): parsing `- [ ] Foo ; 30 @ 14:00` yields an explicit
start time of today at 14:00 local time, and after projection every task
carrying an explicit start time keeps it as its computed start time —
except the first uncompleted task, whose computed start time is
overwritten with the YAML session start (`ExplProp`).  Concretely, after
a 09:00-anchored first task, Foo's computed start is exactly 14:00
regardless of the previous end time 09:05. -/
theorem C2_explicit_start_precedence :
    (∀ (dd su : List Char → Bool) (content : List Char) (now : Int),
      TP2.ExplProp (TP2.filterAndParseTasks dd su content now)) ∧
    TP2.parseStartTime ("- [ ] Foo ; 30 @ 14:00".toList) 0 1641628800000 =
      some 1641650400000 ∧
    TP2.filterAndParseTasksDefault
        ("---\nstartTime: 09:00:00\n---\n- [ ] A ; 5\n- [ ] Foo ; 30 @ 14:00".toList)
        1641628800000 =
      [{ startTime := some 1641632400000, estimate := some ['5'],
         endTime := some 1641632700000, isCompleted := false,
         originalStartTime := false, parsedStartTime := none },
       { startTime := some 1641650400000, estimate := some ['3', '0'],
         endTime := some 1641652200000, isCompleted := false,
         originalStartTime := true, parsedStartTime := some 1641650400000 }] :=
  ⟨fun dd su c n => TP2.filterAndParseTasks_explProp dd su c n, by decide, by decide⟩

/-- C2 witness: the precedence part of `C2_explicit_start_precedence`
applied to the concrete two-task document at index 1. -/
theorem C2_explicit_start_precedence_witness :
    TP2.PTask.startTime
        { startTime := some 1641650400000, estimate := some ['3', '0'],
          endTime := some 1641652200000, isCompleted := false,
          originalStartTime := true, parsedStartTime := some 1641650400000 } =
      some 1641650400000 :=
  C2_explicit_start_precedence.1 (fun _ => false) (fun _ => false)
    ("---\nstartTime: 09:00:00\n---\n- [ ] A ; 5\n- [ ] Foo ; 30 @ 14:00".toList)
    1641628800000 1 1641650400000
    { startTime := some 1641650400000, estimate := some ['3', '0'],
      endTime := some 1641652200000, isCompleted := false,
      originalStartTime := true, parsedStartTime := some 1641650400000 }
    (by decide) (by decide)
    (Or.inr ⟨0, by omega,
      { startTime := some 1641632400000, estimate := some ['5'],
        endTime := some 1641632700000, isCompleted := false,
        originalStartTime := false, parsedStartTime := none },
      by decide, by decide⟩)

/-- C2 counterexample: for the single line `- [ ] Foo ; 30 @ 14:00` with
no session marker, the parsed explicit start time is today 14:00
(epoch 1641650400000), but after projection the task's computed start
time is `none`, not the explicit time: as the first uncompleted task it
received the (absent) YAML session start.  This refutes the claim's
"including when it is the first uncompleted task". -/
theorem C2_explicit_start_precedence_counterexample :
    TP2.filterAndParseTasksDefault ("- [ ] Foo ; 30 @ 14:00".toList) 1641628800000 =
      [{ startTime := none, estimate := some ['3', '0'], endTime := none,
         isCompleted := false, originalStartTime := true,
         parsedStartTime := some 1641650400000 }] ∧
    (none : Option Int) ≠ some 1641650400000 :=
  ⟨by decide, by simp⟩

/-! ## C8: Complete on a non-matching document is the identity -/

theorem rewriteLines_of_no_match (now : Int) (u : TaskManager.TaskUpdate) :
    ∀ lines : List (List Char),
      (∀ line ∈ lines, TaskManager.taskLineMatch line = none) →
      TaskManager.rewriteLines now u lines = lines := by
  intro lines
  induction lines with
  | nil => intro _; rfl
  | cons l ls ih =>
    intro h
    have hl := h l (List.mem_cons_self l ls)
    simp only [TaskManager.rewriteLines, hl]
    rw [ih (fun line hm => h line (List.mem_cons_of_mem l hm))]

/-- C8: when no line of the document matches the pending-task rewrite
pattern, `updateTaskInContent` returns the content byte-identical,
rewriting nothing and inserting nothing. -/
theorem C8_no_match_identity :
    ∀ (content : List Char) (now : Int) (u : TaskManager.TaskUpdate),
      (∀ line ∈ splitLines content, TaskManager.taskLineMatch line = none) →
      TaskManager.updateTaskInContent content now u = content := by
  intro content now u h
  unfold TaskManager.updateTaskInContent
  rw [rewriteLines_of_no_match now u (splitLines content) h, joinLines_splitLines]

/-- C8 witness: `C8_no_match_identity` on a document whose only task line
is already in completed form (so the `- [ ] ` pattern matches nowhere). -/
theorem C8_no_match_identity_witness :
    TaskManager.updateTaskInContent ("- [x] Task ; 12 @ 09:00 \nhello".toList) 0
        { elapsedTime := 3, remainingTime := none } =
      ("- [x] Task ; 12 @ 09:00 \nhello".toList) :=
  C8_no_match_identity ("- [x] Task ; 12 @ 09:00 \nhello".toList) 0
    { elapsedTime := 3, remainingTime := none } (by decide)

/-! ## C10: no session marker means elapsed time zero -/

/-- C10: when the document contains no `startTime:` session marker the
elapsed-time computation returns exactly 0, and consequently completing
or interrupting the current task rewrites its line with recorded
estimate 0 and an actual-start annotation equal to the current time
(here 09:48); the interrupt also inserts a pending line with the full
estimate 30 remaining. -/
theorem C10_no_marker_zero_elapsed :
    (∀ (content : List Char) (now : Int),
      getYamlStartTime content now = none →
      TaskManager.getElapsedTime content now = 0) ∧
    TaskManager.completeTask ("- [ ] Task ; 30".toList) 1641635280000 =
      ("- [x] Task ; 0 @ 09:48 ".toList) ∧
    TaskManager.interruptTask ("- [ ] Task ; 30".toList) 1641635280000 =
      ("- [x] Task ; 0 @ 09:48 
- [ ] Task ; 30 ".toList) ∧
    TaskManager.formatTime 1641635280000 = "09:48".toList := by
  have h0 : TaskManager.getElapsedTime ("- [ ] Task ; 30".toList) 1641635280000 = 0 := by
    have hy : getYamlStartTime ("- [ ] Task ; 30".toList) 1641635280000 = none := by
      decide
    simp only [TaskManager.getElapsedTime, hy]
  refine ⟨fun content now h => ?_, by decide, ?_, by decide⟩
  · simp only [TaskManager.getElapsedTime, h]
  · have hfind : (TP2.filterAndParseTasksDefault ("- [ ] Task ; 30".toList)
        1641635280000).find? (fun t => ¬ t.isCompleted) =
        some { startTime := none, estimate := some ['3', '0'], endTime := none,
               isCompleted := false, originalStartTime := false,
               parsedStartTime := none } := by decide
    simp only [TaskManager.interruptTask]
    rw [hfind]
    dsimp only
    rw [h0]
    have hrem : max 0 ⌈((digitsToNat ['3', '0'] : ℚ) - ((0 : Int) : ℚ))⌉ = (30 : Int) := by
      have h30 : digitsToNat ['3', '0'] = 30 := by decide
      rw [h30]
      norm_num
    rw [hrem]
    have hupd : TaskManager.updateTask ("- [ ] Task ; 30".toList) 1641635280000
        (some ['3', '0']) (some 30) =
        TaskManager.updateTaskInContent ("- [ ] Task ; 30".toList) 1641635280000
          { elapsedTime := 0, remainingTime := some 30 } := by
      simp only [TaskManager.updateTask]
      rw [if_pos (by decide), h0]
    rw [hupd]
    decide

/-- C10 witness: `C10_no_marker_zero_elapsed` on a document with no
session marker at all. -/
theorem C10_no_marker_zero_elapsed_witness :
    TaskManager.getElapsedTime ("hello".toList) 5 = 0 :=
  C10_no_marker_zero_elapsed.1 ("hello".toList) 5 (by decide)

/-! ## C3: interrupt split invariant -/

/-- C3: interrupting the current task with estimate `E` and elapsed
minutes `t` passes the remaining estimate `max(0, ceil(E − t))` to the
line rewrite; concretely, with `E = 30` and `t = 12` (session start
09:00, now 09:12) the document afterwards contains the original line
marked complete with estimate 12 and actual start `@ 09:00`, immediately
followed by a new pending line with the same name, estimate 18 and no
start-time annotation. -/
theorem C3_interrupt_split :
    (∀ (content : List Char) (now : Int) (t : TP2.PTask),
      (TP2.filterAndParseTasksDefault content now).find? (fun t => ¬ t.isCompleted) =
        some t →
      ∀ ds, t.estimate = some ds →
      TaskManager.interruptTask content now =
        TaskManager.updateTask content now (some ds)
          (some (max 0
            ⌈((digitsToNat ds : ℚ) -
              ((TaskManager.getElapsedTime content now : Int) : ℚ))⌉))) ∧
    TaskManager.getElapsedTime
        ("---\nstartTime: 09:00:00\n---\n- [ ] Task ; 30".toList) 1641633120000 = 12 ∧
    TaskManager.interruptTask
        ("---\nstartTime: 09:00:00\n---\n- [ ] Task ; 30".toList) 1641633120000 =
      ("---\nstartTime: 09:00:00\n---\n- [x] Task ; 12 @ 09:00 \n- [ ] Task ; 18 ".toList) := by
  have hgen : ∀ (content : List Char) (now : Int) (t : TP2.PTask),
      (TP2.filterAndParseTasksDefault content now).find? (fun t => ¬ t.isCompleted) =
        some t →
      ∀ ds, t.estimate = some ds →
      TaskManager.interruptTask content now =
        TaskManager.updateTask content now (some ds)
          (some (max 0
            ⌈((digitsToNat ds : ℚ) -
              ((TaskManager.getElapsedTime content now : Int) : ℚ))⌉)) := by
    intro content now t hfind ds hds
    simp only [TaskManager.interruptTask]
    rw [hfind]
    simp only [hds]
  have hel : TaskManager.getElapsedTime
      ("---\nstartTime: 09:00:00\n---\n- [ ] Task ; 30".toList) 1641633120000 = 12 := by
    have hy : getYamlStartTime
        ("---\nstartTime: 09:00:00\n---\n- [ ] Task ; 30".toList) 1641633120000 =
        some 1641632400000 := by decide
    simp only [TaskManager.getElapsedTime, hy, TaskManager.elapsedCore]
    norm_num
  refine ⟨hgen, hel, ?_⟩
  have hfind : (TP2.filterAndParseTasksDefault
      ("---\nstartTime: 09:00:00\n---\n- [ ] Task ; 30".toList) 1641633120000).find?
        (fun t => ¬ t.isCompleted) =
      some { startTime := some 1641632400000, estimate := some ['3', '0'],
             endTime := some 1641634200000, isCompleted := false,
             originalStartTime := false, parsedStartTime := none } := by decide
  rw [hgen _ _ _ hfind ['3', '0'] rfl, hel]
  have hrem : max 0 ⌈((digitsToNat ['3', '0'] : ℚ) - ((12 : Int) : ℚ))⌉ = (18 : Int) := by
    have h30 : digitsToNat ['3', '0'] = 30 := by decide
    rw [h30]
    norm_num
  rw [hrem]
  have hupd : TaskManager.updateTask
      ("---\nstartTime: 09:00:00\n---\n- [ ] Task ; 30".toList) 1641633120000
      (some ['3', '0']) (some 18) =
      TaskManager.updateTaskInContent
        ("---\nstartTime: 09:00:00\n---\n- [ ] Task ; 30".toList) 1641633120000
        { elapsedTime := 12, remainingTime := some 18 } := by
    simp only [TaskManager.updateTask]
    rw [if_pos (by decide), hel]
  rw [hupd]
  decide

/-- C3 witness: the general part of `C3_interrupt_split` applied to the
concrete 09:00-anchored document at its first uncompleted task. -/
theorem C3_interrupt_split_witness :
    TaskManager.interruptTask
        ("---\nstartTime: 09:00:00\n---\n- [ ] Task ; 30".toList) 1641633120000 =
      TaskManager.updateTask
        ("---\nstartTime: 09:00:00\n---\n- [ ] Task ; 30".toList) 1641633120000
        (some ['3', '0'])
        (some (max 0
          ⌈((digitsToNat ['3', '0'] : ℚ) -
            ((TaskManager.getElapsedTime
              ("---\nstartTime: 09:00:00\n---\n- [ ] Task ; 30".toList)
              1641633120000 : Int) : ℚ))⌉)) :=
  C3_interrupt_split.1
    ("---\nstartTime: 09:00:00\n---\n- [ ] Task ; 30".toList) 1641633120000
    { startTime := some 1641632400000, estimate := some ['3', '0'],
      endTime := some 1641634200000, isCompleted := false,
      originalStartTime := false, parsedStartTime := none }
    (by decide) ['3', '0'] rfl

/-! ## C4: ordering of completed and uncompleted tasks -/

theorem parseLoop_spec (dd : List Char → Bool) (currentDate : Int) :
    ∀ (lines : List (List Char)) (st : TP21.QState)
      (completed uncompleted : List TP21.QTask),
      TP21.parseLoop dd currentDate lines st completed uncompleted =
        (((TP21.tasksInDocumentOrder dd currentDate lines st).filter
            (fun t => t.isChecked)).reverse ++ completed,
         uncompleted ++
           (TP21.tasksInDocumentOrder dd currentDate lines st).filter
             (fun t => !t.isChecked)) := by
  intro lines
  induction lines with
  | nil =>
    intro st completed uncompleted
    simp [TP21.parseLoop, TP21.tasksInDocumentOrder]
  | cons l ls ih =>
    intro st completed uncompleted
    simp only [TP21.parseLoop, TP21.tasksInDocumentOrder]
    rcases hstep : TP21.lineStep dd currentDate st l with ⟨o, st2⟩
    cases o with
    | none => simp only [ih st2 completed uncompleted]
    | some t =>
      dsimp only
      by_cases hc : t.isChecked = true
      · rw [if_pos hc]
        simp only [ih st2 (t :: completed) uncompleted, List.filter_cons, hc,
          List.reverse_cons]
        refine Prod.ext ?_ ?_
        · simp
        · simp [Bool.not_eq_true', hc]
      · rw [if_neg hc]
        have hc' : t.isChecked = false := by
          cases hv : t.isChecked
          · rfl
          · exact absurd hv hc
        simp only [ih st2 completed (uncompleted ++ [t]), List.filter_cons, hc']
        refine Prod.ext ?_ ?_
        · simp
        · simp [hc']

/-- C4 (amended): for every parsed document, `parseTasksFromContent`
returns the uncompleted tasks first, in document order, followed by the
completed tasks in reverse discovery order (most recently encountered
completed task first) — the completed block comes after, not ahead of,
the uncompleted block.  Concretely, for completed A (`;10`), uncompleted
B (`;20`), completed C (`;30`) in that document order, the result is
B, C, A. -/
theorem C4_completed_ordering :
    (∀ (dd : List Char → Bool) (content : List Char) (currentDate : Int),
      TP21.parseTasksFromContent dd content currentDate =
        (TP21.docTasks dd content currentDate).filter (fun t => !t.isChecked) ++
        ((TP21.docTasks dd content currentDate).filter
          (fun t => t.isChecked)).reverse) ∧
    TP21.parseTasksFromContent (fun _ => false)
        ("- [x] A ;10\n- [ ] B ;20\n- [x] C ;30".toList) 0 =
      [{ startTime := none, previousEndTime := none, estimate := some ['2', '0'],
         isChecked := false },
       { startTime := none, previousEndTime := none, estimate := some ['3', '0'],
         isChecked := true },
       { startTime := none, previousEndTime := none, estimate := some ['1', '0'],
         isChecked := true }] := by
  refine ⟨fun dd content currentDate => ?_, by decide⟩
  simp only [TP21.parseTasksFromContent, TP21.docTasks]
  rw [parseLoop_spec dd currentDate ((splitLines content).map jsTrim)
    TP21.initQState [] []]
  simp

/-- C4 counterexample: for the document `- [x] A ;10`, `- [ ] B ;20`,
`- [x] C ;30`, the returned sequence has the uncompleted task first and
the completed tasks after it (`isChecked` flags `[false, true, true]`),
so the completed tasks are not placed ahead of the uncompleted tasks as
the claim states. -/
theorem C4_completed_ordering_counterexample :
    ((TP21.parseTasksFromContent (fun _ => false)
        ("- [x] A ;10\n- [ ] B ;20\n- [x] C ;30".toList) 0).map
      TP21.QTask.isChecked) = [false, true, true] ∧
    ((TP21.parseTasksFromContent (fun _ => false)
        ("- [x] A ;10\n- [ ] B ;20\n- [x] C ;30".toList) 0)[0]?).map
      TP21.QTask.isChecked = some false ∧
    ((TP21.parseTasksFromContent (fun _ => false)
        ("- [x] A ;10\n- [ ] B ;20\n- [x] C ;30".toList) 0)[1]?).map
      TP21.QTask.isChecked = some true := by
  refine ⟨by decide, by decide, by decide⟩
